import Mathlib

/-!
Shallow embedding of the `dynamic_position_sizer` package, over ℚ for prices
and scores.  Missing values (Python `None`, pandas `NaN`) are `Option`; Python
`int()` truncation is modelled explicitly.  Definitions mirror the Python
sources named in their doc comments.
-/

namespace StockWave

/-! ## position/trailing_stop.py -/

/-- Embedding of `TrailingStopResult` (position/trailing_stop.py).
`recent_high_date`, a pass-through datetime never used in arithmetic,
is omitted. -/
structure TrailingStopResult where
  ticker : String
  current_price : ℚ
  recent_high : ℚ
  atr : ℚ
  atr_period : ℕ
  multiplier : ℚ
  stop_level : ℚ
  stop_distance : ℚ
  stop_distance_pct : ℚ
  risk_per_share : ℚ
  deriving Repr, DecidableEq

/-- Embedding of `compute_trailing_stop` (position/trailing_stop.py, lines 82-131). -/
def compute_trailing_stop (current_price recent_high atr : ℚ)
    (multiplier : ℚ) (ticker : String) (atr_period : ℕ) : TrailingStopResult :=
  let stop_distance_from_high := multiplier * atr
  let stop_level := recent_high - stop_distance_from_high
  let stop_distance := current_price - stop_level
  let stop_distance_pct :=
    if current_price > 0 then (stop_distance / current_price) * 100 else 0
  { ticker := ticker
    current_price := current_price
    recent_high := recent_high
    atr := atr
    atr_period := atr_period
    multiplier := multiplier
    stop_level := stop_level
    stop_distance := stop_distance
    stop_distance_pct := stop_distance_pct
    risk_per_share := stop_distance }

/-! ## position/stop_recommender.py -/

/-- Python `int()` applied to a rational: truncation toward zero. -/
def pyInt (q : ℚ) : ℤ := if 0 ≤ q then ⌊q⌋ else ⌈q⌉

/-- Embedding of `StopRecommendation.shares_for_risk`
(position/stop_recommender.py, lines 73-77): the receiver's
`risk_per_share` field is the first argument. -/
def shares_for_risk (risk_per_share risk_dollars : ℚ) : ℤ :=
  if risk_per_share ≤ 0 then 0 else pyInt (risk_dollars / risk_per_share)

/-! ## indicators/atr.py -/

/-- One OHLC bar (the `High`, `Low`, `Close` columns used by the indicator
code; `Open` and `Volume` are never read by it). -/
structure Bar where
  high : ℚ
  low : ℚ
  close : ℚ
  deriving Repr, DecidableEq

/-- Pandas `DataFrame.max(axis=1)` over one row with default `skipna=True`:
the maximum of the non-missing entries, missing only when all entries are. -/
def rowMax (l : List (Option ℚ)) : Option ℚ :=
  l.foldl (fun acc o =>
    match acc, o with
    | none, o => o
    | some a, none => some a
    | some a, some x => some (max a x)) none

/-- One row of `compute_true_range` (indicators/atr.py, lines 30-60):
`prev_close = close.shift(1)` is missing on the first row, so the
`|high − prevClose|` and `|low − prevClose|` columns are missing there,
and the row-wise max skips them. -/
def trueRangeRow (prevClose : Option ℚ) (b : Bar) : Option ℚ :=
  rowMax [some (b.high - b.low),
          prevClose.map (fun pc => |b.high - pc|),
          prevClose.map (fun pc => |b.low - pc|)]

/-- Helper: walk the bars carrying the previous close. -/
def trueRangeGo (prev : Option ℚ) : List Bar → List (Option ℚ)
  | [] => []
  | b :: rest => trueRangeRow prev b :: trueRangeGo (some b.close) rest

/-- Embedding of `compute_true_range` (indicators/atr.py, lines 30-60). -/
def compute_true_range (df : List Bar) : List (Option ℚ) :=
  trueRangeGo none df

/-- The recursion of `compute_atr_wilder`'s loop (indicators/atr.py,
lines 86-91): `atr_i = ((period−1)/period)·atr_{i−1} + tr_i/period`. -/
def wilderRec (period : ℕ) (prev : ℚ) : List ℚ → List ℚ
  | [] => []
  | t :: rest =>
    let a := ((period : ℚ) - 1) / period * prev + t / period
    a :: wilderRec period a rest

/-- Embedding of `compute_atr_wilder` (indicators/atr.py, lines 63-96):
positions `0 … period−2` stay missing, position `period−1` is the simple
mean of the first `period` true ranges, later positions follow `wilderRec`.
With fewer than `period` values every position stays missing. -/
def compute_atr_wilder (tr : List ℚ) (period : ℕ) : List (Option ℚ) :=
  if tr.length < period then List.replicate tr.length none
  else
    let first := (tr.take period).sum / period
    List.replicate (period - 1) none ++
      some first :: (wilderRec period first (tr.drop period)).map some

/-- The True Range values as plain rationals.  `compute_atr` feeds the series
straight into the smoothers; since every entry is defined
(`compute_true_range_all_some`) extracting the value with a dummy default is
faithful. -/
def trueRangeVals (df : List Bar) : List ℚ :=
  (compute_true_range df).map (fun o => o.getD 0)

/-- Embedding of `compute_atr_sma` (indicators/atr.py, lines 99-115):
`rolling(window=period).mean()`, defined from index `period−1` on. -/
def compute_atr_sma (tr : List ℚ) (period : ℕ) : List (Option ℚ) :=
  (List.range tr.length).map fun i =>
    if i + 1 < period then none
    else some (((tr.drop (i + 1 - period)).take period).sum / period)

/-- The recursion of `ewm(span=period, adjust=False).mean()`:
`y_i = (1−α)·y_{i−1} + α·x_i`. -/
def emaRec (a prev : ℚ) : List ℚ → List ℚ
  | [] => []
  | t :: rest =>
    let y := (1 - a) * prev + a * t
    y :: emaRec a y rest

/-- Embedding of `compute_atr_ema` (indicators/atr.py, lines 118-134):
`alpha = 2/(span+1)`, seeded with the first value. -/
def compute_atr_ema (tr : List ℚ) (period : ℕ) : List ℚ :=
  match tr with
  | [] => []
  | t :: rest => t :: emaRec (2 / ((period : ℚ) + 1)) t rest

/-- The two `ValueError` cases of `compute_atr` (indicators/atr.py): the
Python messages are elided. -/
inductive ATRError where
  | insufficientData
  | unknownMethod
  deriving Repr, DecidableEq

/-- Embedding of `ATRResult` (indicators/atr.py, lines 21-27); `current_atr`
is `none` where Python stores `NaN`. -/
structure ATRResult where
  atr_series : List (Option ℚ)
  current_atr : Option ℚ
  period : ℕ
  method : String
  deriving Repr, DecidableEq

/-- `atr_series.dropna().iloc[-1]` with the empty-series `NaN` fallback. -/
def lastDefined (l : List (Option ℚ)) : Option ℚ :=
  l.reduceOption.getLast?

/-- Python `str.lower()` on the (ASCII) method names, modelled character by
character. -/
def pyLower (s : String) : String :=
  String.mk (s.data.map Char.toLower)

/-- Embedding of `compute_atr` (indicators/atr.py, lines 136-182): raise on
fewer than `period+1` rows, then dispatch on the lower-cased method. -/
def compute_atr (df : List Bar) (period : ℕ) (method : String) :
    Except ATRError ATRResult :=
  if df.length < period + 1 then
    .error ATRError.insufficientData
  else
    let true_range := trueRangeVals df
    let m := pyLower method
    if m = "wilder" then
      let s := compute_atr_wilder true_range period
      .ok ⟨s, lastDefined s, period, m⟩
    else if m = "sma" then
      let s := compute_atr_sma true_range period
      .ok ⟨s, lastDefined s, period, m⟩
    else if m = "ema" then
      let s := (compute_atr_ema true_range period).map some
      .ok ⟨s, lastDefined s, period, m⟩
    else
      .error ATRError.unknownMethod

/-! ## indicators/analyst_scoring.py -/

/-- The constructor parameters of `AnalystScoring`
(indicators/analyst_scoring.py, lines 40-76), before weight normalization. -/
structure AnalystConfig where
  weight_upside : ℚ
  weight_sentiment : ℚ
  weight_momentum : ℚ
  weight_coverage : ℚ
  min_multiplier : ℚ
  max_multiplier : ℚ
  min_analyst_count : ℤ
  deriving Repr, DecidableEq

/-- `weight_upside + weight_sentiment + weight_momentum + weight_coverage`. -/
def AnalystConfig.totalWeight (c : AnalystConfig) : ℚ :=
  c.weight_upside + c.weight_sentiment + c.weight_momentum + c.weight_coverage

/-- Embedding of `AnalystScore` (indicators/analyst_scoring.py, lines 16-30). -/
structure AnalystScore where
  upside_score : ℚ
  sentiment_score : ℚ
  momentum_score : ℚ
  coverage_score : ℚ
  composite_score : ℚ
  multiplier : ℚ
  target_upside_pct : Option ℚ
  recommendation_mean : Option ℚ
  analyst_count : Option ℤ
  net_upgrades : ℤ
  deriving Repr, DecidableEq

/-- Python truthiness test `not analyst_count`: true for `None` and `0`. -/
def countFalsy (count : Option ℤ) : Bool :=
  match count with
  | none => true
  | some n => n == 0

/-- `AnalystScoring._score_upside` (lines 156-175). -/
def score_upside (upside_pct : Option ℚ) : ℚ :=
  match upside_pct with
  | none => 50
  | some u =>
    if u ≥ 50 then 100
    else if u ≥ 0 then 50 + u / 50 * 50
    else max 0 (50 + u / 20 * 50)

/-- `AnalystScoring._score_sentiment` (lines 177-194). -/
def score_sentiment (recommendation_mean : Option ℚ) : ℚ :=
  match recommendation_mean with
  | none => 50
  | some r =>
    let rec_clamped := max 1 (min 5 r)
    100 - (rec_clamped - 1) / 4 * 100

/-- `AnalystScoring._score_momentum` (lines 196-212). -/
def score_momentum (upgrades downgrades : ℤ) : ℚ :=
  let net := upgrades - downgrades
  if net ≥ 3 then 100
  else if net ≤ -3 then 0
  else 50 + (net : ℚ) / 3 * 50

/-- `AnalystScoring._score_coverage` (lines 214-237). -/
def score_coverage (c : AnalystConfig) (count : Option ℤ) : ℚ :=
  if countFalsy count then 0
  else
    match count with
    | none => 0
    | some n =>
      if n < c.min_analyst_count then 0
      else if n ≥ 20 then 100
      else if n ≥ 10 then 75 + ((n : ℚ) - 10) / 10 * 25
      else if n ≥ 5 then 50 + ((n : ℚ) - 5) / 5 * 25
      else 25 + ((n : ℚ) - 3) / 2 * 25

/-- `AnalystScoring._score_to_multiplier` (lines 224-244): linear map of the
composite score onto the multiplier range, clamped. -/
def score_to_multiplier (c : AnalystConfig) (score : ℚ) : ℚ :=
  let normalized := (score - 50) / 50
  let multiplier :=
    if normalized ≥ 0 then 1 + normalized * (c.max_multiplier - 1)
    else 1 + normalized * (1 - c.min_multiplier)
  max c.min_multiplier (min c.max_multiplier multiplier)

/-- The neutral guard of `calculate_score`:
`not analyst_count or analyst_count < self.min_analyst_count` (Python
short-circuits, so the comparison is only reached on an actual number). -/
def neutralGuard (c : AnalystConfig) (count : Option ℤ) : Bool :=
  countFalsy count ||
    (match count with
     | none => false
     | some n => decide (n < c.min_analyst_count))

/-- Embedding of `AnalystScoring.calculate_score`
(indicators/analyst_scoring.py, lines 73-140).  `analyst_target_mean` is
accepted and, as in the source, never used in the computation. -/
def calculate_score (c : AnalystConfig) (_analyst_target_mean : Option ℚ)
    (analyst_target_upside_pct : Option ℚ)
    (analyst_recommendation_mean : Option ℚ) (analyst_count : Option ℤ)
    (recent_upgrades_30d recent_downgrades_30d : ℤ) : AnalystScore :=
  if neutralGuard c analyst_count then
    { upside_score := 50
      sentiment_score := 50
      momentum_score := 50
      coverage_score := 0
      composite_score := 50
      multiplier := 1
      target_upside_pct := analyst_target_upside_pct
      recommendation_mean := analyst_recommendation_mean
      analyst_count := analyst_count
      net_upgrades := recent_upgrades_30d - recent_downgrades_30d }
  else
    let upside_score := score_upside analyst_target_upside_pct
    let sentiment_score := score_sentiment analyst_recommendation_mean
    let momentum_score := score_momentum recent_upgrades_30d recent_downgrades_30d
    let coverage_score := score_coverage c analyst_count
    let composite_score :=
      upside_score * (c.weight_upside / c.totalWeight) +
      sentiment_score * (c.weight_sentiment / c.totalWeight) +
      momentum_score * (c.weight_momentum / c.totalWeight) +
      coverage_score * (c.weight_coverage / c.totalWeight)
    { upside_score := upside_score
      sentiment_score := sentiment_score
      momentum_score := momentum_score
      coverage_score := coverage_score
      composite_score := composite_score
      multiplier := score_to_multiplier c composite_score
      target_upside_pct := analyst_target_upside_pct
      recommendation_mean := analyst_recommendation_mean
      analyst_count := analyst_count
      net_upgrades := recent_upgrades_30d - recent_downgrades_30d }

/-! ## data/cache_manager.py

Time is modelled as rational hours since an arbitrary epoch; `datetime.now()`
becomes an explicit `now` argument.  The backing store (one JSON file per
key under `.cache/`) becomes a map from keys to entries; `file.unlink()` is
removal from the map. -/

/-- Embedding of `CacheEntry` (data/cache_manager.py, lines 18-36), with the
ISO timestamp as rational hours. -/
structure CacheEntry (α : Type) where
  data : α
  timestamp : ℚ
  ttl_hours : ℤ
  key : String

/-- `CacheEntry.is_expired` (lines 26-30): strictly past
`timestamp + ttl_hours`. -/
def CacheEntry.is_expired {α : Type} (e : CacheEntry α) (now : ℚ) : Bool :=
  decide (now > e.timestamp + (e.ttl_hours : ℚ))

/-- The backing file store, keyed by cache key. -/
def CacheStore (α : Type) : Type := String → Option (CacheEntry α)

/-- Embedding of `CacheManager.set` (data/cache_manager.py, lines 129-158):
write an entry stamped `now`.  (The hit/miss counters are beside the claim
and omitted.) -/
def cache_set {α : Type} (s : CacheStore α) (key : String) (data : α)
    (ttl : ℤ) (now : ℚ) : CacheStore α :=
  fun k => if k = key then some ⟨data, now, ttl, key⟩ else s k

/-- Embedding of `CacheManager.get` (data/cache_manager.py, lines 94-127):
miss when absent; on an expired entry, delete the backing entry and miss;
otherwise return the data.  Returns the value and the store after the read. -/
def cache_get {α : Type} (s : CacheStore α) (key : String) (now : ℚ) :
    Option α × CacheStore α :=
  match s key with
  | none => (none, s)
  | some e =>
    if e.is_expired now then
      (none, fun k => if k = key then none else s k)
    else
      (some e.data, s)

/-! ## screeners/screener_manager.py — the per-ticker combine step

`run_screen` (screener_manager.py, lines 203-265) builds an insertion-ordered
dict `screener_results : strategy name → ScreenerResult` (one fresh object per
strategy), combines the verdicts, applies the analyst multiplier by mutating
the chosen object in place, and only then reads every strategy's score back
out of the dict.  The dict is modelled as an ordered association list with
distinct keys (a dict comprehension deduplicates keys). -/

/-- Embedding of `ScreenerResult` (screeners/base_screener.py, lines 17-28).
The `fundamental_data`/`technical_data` dicts and the `screened_at` timestamp
are carried verbatim by the combine step and elided. -/
structure ScreenerResult where
  ticker : String
  score : ℚ
  passed : Bool
  passed_criteria : List String
  failed_criteria : List String
  notes : String
  deriving Repr, DecidableEq

/-- Python `max(xs)` over a nonempty sequence of numbers: left fold replacing
the carrier only on strictly greater elements. -/
def pyMax (x : ℚ) (xs : List ℚ) : ℚ :=
  xs.foldl (fun a b => if b > a then b else a) x

/-- Python `max(xs, key=f)` over a nonempty sequence: same fold, so ties keep
the earliest element. -/
def pyMaxBy {β : Type} (f : β → ℚ) (x : β) (xs : List β) : β :=
  xs.foldl (fun best r => if f r > f best then r else best) x

/-- Rewrite the first element satisfying `q`, leave the rest alone. -/
def setFirstBy {α : Type} (q : α → Bool) (f : α → α) : List α → List α
  | [] => []
  | x :: xs => if q x then f x :: xs else x :: setFirstBy q f xs

/-- The optional analyst adjustment
(`combined_result.score = combined_result.score * analyst_score.multiplier`,
screener_manager.py line 252). -/
def applyMult (mult : Option ℚ) (r : ScreenerResult) : ScreenerResult :=
  match mult with
  | none => r
  | some m => ⟨r.ticker, r.score * m, r.passed, r.passed_criteria,
      r.failed_criteria, r.notes⟩

/-- Embedding of the combine-and-score step of `ScreenerManager.run_screen`
(screener_manager.py, lines 223-258) for one ticker.  `results` is the
ordered `screener_results` dict, `mult` the analyst multiplier when scoring
is enabled.  Returns the final `combined_result` and the `screener_scores`
map, read from the dict after the in-place mutation.  In union mode
`combined_result` aliases the first dict slot attaining the maximal score
(Python's `max` keeps the first maximum), so the mutation lands on exactly
that slot: `setFirstBy` realises the aliasing.  An empty strategy dict makes
the Python raise; the embedding returns `none` there. -/
def combineStep (combine_mode : String)
    (results : List (String × ScreenerResult)) (mult : Option ℚ) :
    Option (ScreenerResult × List (String × ℚ)) :=
  match results with
  | [] => none
  | (n0, v0) :: rest =>
    let values := v0 :: rest.map Prod.snd
    if combine_mode = "intersection" then
      let passed := values.all (fun r => r.passed)
      let avg_score := (values.map (fun r => r.score)).sum / (values.length : ℚ)
      -- the first strategy's object with `passed` and `score` overwritten
      let combined := applyMult mult
        ⟨v0.ticker, avg_score, passed, v0.passed_criteria, v0.failed_criteria, v0.notes⟩
      let mutated := (n0, combined) :: rest
      some (combined, mutated.map (fun pr => (pr.1, pr.2.score)))
    else
      let passed := values.any (fun r => r.passed)
      let max_score := pyMax v0.score ((rest.map Prod.snd).map (fun r => r.score))
      let sel := pyMaxBy (fun r => r.score) v0 (rest.map Prod.snd)
      -- the selected object with `passed` and `score` overwritten
      let combined := applyMult mult
        ⟨sel.ticker, max_score, passed, sel.passed_criteria, sel.failed_criteria, sel.notes⟩
      let mutated := setFirstBy (fun pr => decide (pr.2.score = max_score))
        (fun pr => (pr.1, combined)) ((n0, v0) :: rest)
      some (combined, mutated.map (fun pr => (pr.1, pr.2.score)))
/-! ## Theorems -/

/-- C6: `compute_trailing_stop` sets `stop_level = recent_high − multiplier·atr`
and `risk_per_share = current_price − stop_level`; in particular at
`current_price = 100, recent_high = 120, atr = 5, multiplier = 2` it returns
`stop_level = 110` and `stop_distance = −10`, a valid state (the embedding is a
total function, so no error is possible). -/
theorem compute_trailing_stop_invariants (cp rh a m : ℚ) (t : String) (p : ℕ) :
    ((compute_trailing_stop cp rh a m t p).stop_level = rh - m * a ∧
     (compute_trailing_stop cp rh a m t p).risk_per_share =
       cp - (compute_trailing_stop cp rh a m t p).stop_level) ∧
    ((compute_trailing_stop 100 120 5 2 "X" 14).stop_level = 110 ∧
     (compute_trailing_stop 100 120 5 2 "X" 14).stop_distance = -10) := by
  refine ⟨⟨rfl, rfl⟩, by norm_num [compute_trailing_stop], by norm_num [compute_trailing_stop]⟩

/-- C10: when `current_price ≤ 0`, the percentage distance is 0 rather than a
division by the non-positive price. -/
theorem compute_trailing_stop_pct_total (cp rh a m : ℚ) (t : String) (p : ℕ)
    (h : cp ≤ 0) :
    (compute_trailing_stop cp rh a m t p).stop_distance_pct = 0 := by
  simp [compute_trailing_stop, not_lt.mpr h]

/-- Witness for C10 at `current_price = 0`. -/
theorem compute_trailing_stop_pct_total_witness :
    (0 : ℚ) ≤ 0 ∧ (compute_trailing_stop 0 120 5 2 "X" 14).stop_distance_pct = 0 :=
  ⟨le_refl 0, compute_trailing_stop_pct_total 0 120 5 2 "X" 14 (le_refl 0)⟩

/-- C8 counterexample: with `risk_per_share = 2 > 0` and `risk_dollars = −5`,
the code returns Python `int(−5/2) = −2`, not `⌊−5/2⌋ = −3`. -/
theorem shares_for_risk_not_floor :
    (0 : ℚ) < 2 ∧ shares_for_risk 2 (-5) = -2 ∧ ⌊(-5 : ℚ) / 2⌋ = -3 := by
  refine ⟨by norm_num, ?_, ?_⟩
  · have hc : ⌈(-5 : ℚ) / 2⌉ = -2 := by
      rw [Int.ceil_eq_iff]
      norm_num
    simp [shares_for_risk, pyInt, hc]
    norm_num
  · rw [Int.floor_eq_iff]
    norm_num

/-- C8 (amended): `shares_for_risk` returns 0 when `risk_per_share ≤ 0`, and
equals `⌊risk_dollars / risk_per_share⌋` when `risk_per_share > 0` and
`risk_dollars ≥ 0` (for negative `risk_dollars` it truncates toward zero
instead of flooring). -/
theorem shares_for_risk_spec (rd rps : ℚ) :
    (rps ≤ 0 → shares_for_risk rps rd = 0) ∧
    (0 < rps → 0 ≤ rd → shares_for_risk rps rd = ⌊rd / rps⌋) := by
  constructor
  · intro h
    simp [shares_for_risk, h]
  · intro h hd
    have hns : ¬ rps ≤ 0 := not_le.mpr h
    have hq : 0 ≤ rd / rps := div_nonneg hd h.le
    simp [shares_for_risk, hns, pyInt, hq]

/-- Witness for C8: at `risk_dollars = 7`, `risk_per_share = 2` the amended
specification evaluates to `⌊7/2⌋ = 3`. -/
theorem shares_for_risk_spec_witness :
    (0 : ℚ) < 2 ∧ (0 : ℚ) ≤ 7 ∧ shares_for_risk 2 7 = ⌊(7 : ℚ) / 2⌋ :=
  ⟨by norm_num, by norm_num, (shares_for_risk_spec 7 2).2 (by norm_num) (by norm_num)⟩

theorem trueRangeGo_length (prev : Option ℚ) (df : List Bar) :
    (trueRangeGo prev df).length = df.length := by
  induction df generalizing prev with
  | nil => rfl
  | cons b rest ih => simp [trueRangeGo, ih]

theorem wilderRec_length (p : ℕ) (prev : ℚ) (l : List ℚ) :
    (wilderRec p prev l).length = l.length := by
  induction l generalizing prev with
  | nil => rfl
  | cons t rest ih => simp [wilderRec, ih]

/-- The chain invariant of Wilder's loop: element `j` of the output is the
smoothing step applied to element `j` of the chain `prev :: output` and the
`j`-th input. -/
theorem wilderRec_step (p : ℕ) (prev : ℚ) (l : List ℚ) (j : ℕ)
    (hj : j < l.length) :
    ∃ pv tj, (prev :: wilderRec p prev l)[j]? = some pv ∧
      l[j]? = some tj ∧
      (wilderRec p prev l)[j]? = some (((p : ℚ) - 1) / p * pv + tj / p) := by
  induction l generalizing prev j with
  | nil => simp at hj
  | cons t rest ih =>
    cases j with
    | zero => exact ⟨prev, t, by simp, by simp, by simp [wilderRec]⟩
    | succ j =>
      have hj' : j < rest.length := by simpa using hj
      obtain ⟨pv, tj, h1, h2, h3⟩ :=
        ih (((p : ℚ) - 1) / p * prev + t / p) j hj'
      refine ⟨pv, tj, ?_, by simpa using h2, ?_⟩
      · simpa [wilderRec] using h1
      · simpa [wilderRec] using h3

/-- C3 counterexample: on the single bar `(high, low, close) = (10, 8, 9)` the
True Range series is `[2]` (the skip-missing row max keeps `high − low`): the
first position is neither omitted nor a missing-value sentinel. -/
theorem compute_true_range_first_bar_cex :
    compute_true_range [⟨10, 8, 9⟩] = [some 2] ∧
    ¬ (compute_true_range [⟨10, 8, 9⟩] = [] ∨
       (compute_true_range [⟨10, 8, 9⟩]).head? = some none) := by
  constructor
  · show [rowMax [some ((10 : ℚ) - 8), none, none]] = [some 2]
    norm_num [rowMax]
  · intro h
    rcases h with h | h <;> simp [compute_true_range, trueRangeGo, trueRangeRow, rowMax] at h

/-- C3 (amended): the True Range series keeps the length of the input and its
first entry is defined, equal to `high − low` of the first bar (the
prior-close components are missing there and the row max skips them); every
later entry is the max of the three components against the previous close. -/
theorem compute_true_range_first_bar (b : Bar) (rest : List Bar) :
    (compute_true_range (b :: rest)).head? = some (some (b.high - b.low)) ∧
    (compute_true_range (b :: rest)).length = rest.length + 1 ∧
    ∀ df : List Bar, (compute_true_range df).length = df.length := by
  refine ⟨?_, ?_, fun df => trueRangeGo_length none df⟩
  · simp [compute_true_range, trueRangeGo, trueRangeRow, rowMax]
  · simpa using trueRangeGo_length none (b :: rest)

/-- C5: for a True Range series of length at least `period ≥ 1`, Wilder ATR is
missing before index `period−1`, equals the simple mean of the first `period`
true ranges at index `period−1`, and at every index `i ≥ period` equals
`((period−1)·ATR_{i−1} + TR_i)/period`. -/
theorem compute_atr_wilder_spec (tr : List ℚ) (p : ℕ) (hp : 1 ≤ p)
    (hlen : p ≤ tr.length) :
    (∀ i, i < p - 1 → (compute_atr_wilder tr p)[i]? = some none) ∧
    (compute_atr_wilder tr p)[p - 1]? = some (some ((tr.take p).sum / p)) ∧
    (∀ i, p ≤ i → i < tr.length →
      ∃ prev ti, (compute_atr_wilder tr p)[i - 1]? = some (some prev) ∧
        tr[i]? = some ti ∧
        (compute_atr_wilder tr p)[i]? =
          some (some ((((p : ℚ) - 1) * prev + ti) / p))) := by
  have hnot : ¬ tr.length < p := not_lt.mpr hlen
  set first := (tr.take p).sum / (p : ℚ) with hfirst
  have hdef : compute_atr_wilder tr p =
      List.replicate (p - 1) none ++
        some first :: (wilderRec p first (tr.drop p)).map some := by
    simp [compute_atr_wilder, hnot]
  refine ⟨?_, ?_, ?_⟩
  · intro i hi
    rw [hdef, List.getElem?_append_left (by simpa using hi)]
    simp [List.getElem?_replicate, hi]
  · rw [hdef, List.getElem?_append_right (by simp)]
    simp
  · intro i hpi hilt
    have hdrop : i - p < (tr.drop p).length := by
      simp [List.length_drop]
      omega
    obtain ⟨pv, ti, h1, h2, h3⟩ := wilderRec_step p first (tr.drop p) (i - p) hdrop
    have hpne : ((p : ℚ)) ≠ 0 := by
      exact_mod_cast Nat.one_le_iff_ne_zero.mp hp
    refine ⟨pv, ti, ?_, ?_, ?_⟩
    · -- index i − 1 of the ATR series is index i − p of the chain
      rw [hdef, List.getElem?_append_right (by simp; omega)]
      have hidx : i - 1 - (p - 1) = i - p := by omega
      rw [List.length_replicate, hidx]
      rcases Nat.eq_zero_or_pos (i - p) with h0 | hpos
      · rw [h0] at h1 ⊢
        simp only [List.getElem?_cons_zero] at h1 ⊢
        simpa using h1
      · obtain ⟨j, hj⟩ := Nat.exists_eq_add_of_le (Nat.one_le_iff_ne_zero.mpr hpos.ne')
        rw [Nat.add_comm] at hj
        rw [hj] at h1 ⊢
        simp only [List.getElem?_cons_succ] at h1 ⊢
        simpa [List.getElem?_map] using h1
    · have := List.getElem?_drop tr p (i - p)
      rw [Nat.add_sub_cancel' hpi] at this
      rw [← this, h2]
    · rw [hdef, List.getElem?_append_right (by simp; omega)]
      have hidx : i - (p - 1) = (i - p) + 1 := by omega
      rw [List.length_replicate, hidx]
      simp only [List.getElem?_cons_succ, List.getElem?_map, h3, Option.map_some]
      field_simp

/-- Witness for C5 at `period = 2`, `tr = [1, 2, 3]`: the first ATR value is
`3/2` at index 1 and the value at index 2 is `(1·(3/2) + 3)/2 = 9/4`. -/
theorem compute_atr_wilder_spec_witness :
    1 ≤ 2 ∧ 2 ≤ [(1 : ℚ), 2, 3].length ∧
    ((compute_atr_wilder [1, 2, 3] 2)[1]? =
        some (some (([(1 : ℚ), 2, 3].take 2).sum / 2)) ∧
      ∃ prev ti, (compute_atr_wilder [(1 : ℚ), 2, 3] 2)[1]? = some (some prev) ∧
        [(1 : ℚ), 2, 3][2]? = some ti ∧
        (compute_atr_wilder [(1 : ℚ), 2, 3] 2)[2]? =
          some (some ((((2 : ℚ) - 1) * prev + ti) / 2))) := by
  have h := compute_atr_wilder_spec [(1 : ℚ), 2, 3] 2 (by norm_num) (by norm_num)
  exact ⟨by norm_num, by norm_num, h.2.1, h.2.2 2 (by norm_num) (by norm_num)⟩

/-- Every entry of the True Range series is defined: the `high − low`
component is always present and the row max keeps it. -/
theorem compute_true_range_all_some (df : List Bar) :
    ∀ x ∈ compute_true_range df, x.isSome := by
  show ∀ x ∈ trueRangeGo none df, x.isSome
  have key : ∀ (df : List Bar) (prev : Option ℚ),
      ∀ x ∈ trueRangeGo prev df, x.isSome := by
    intro df
    induction df with
    | nil => intro prev x hx; simp [trueRangeGo] at hx
    | cons b rest ih =>
      intro prev x hx
      rcases List.mem_cons.mp hx with h | h
      · subst h
        cases prev <;> simp [trueRangeRow, rowMax]
      · exact ih (some b.close) x h
  exact key df none

/-- C7: `compute_atr` fails with the insufficient-data error exactly on short
input: with fewer than `period+1` bars it returns that error whatever the
method, and with at least `period+1` bars and a valid method (`wilder`, `sma`
or `ema`) it returns a result. -/
theorem compute_atr_insufficient_iff (df : List Bar) (p : ℕ) (m : String)
    (_hp : 1 ≤ p) :
    (df.length < p + 1 → compute_atr df p m = .error ATRError.insufficientData) ∧
    (p + 1 ≤ df.length → (m = "wilder" ∨ m = "sma" ∨ m = "ema") →
      ∃ r, compute_atr df p m = .ok r) := by
  constructor
  · intro h
    simp [compute_atr, h]
  · intro hlen hm
    have hnot : ¬ df.length < p + 1 := not_lt.mpr hlen
    rcases hm with h | h | h <;> subst h
    · refine ⟨⟨compute_atr_wilder (trueRangeVals df) p,
        lastDefined (compute_atr_wilder (trueRangeVals df) p), p, "wilder"⟩, ?_⟩
      simp only [compute_atr, if_neg hnot]
      rw [if_pos (by decide), show pyLower "wilder" = "wilder" from by decide]
    · refine ⟨⟨compute_atr_sma (trueRangeVals df) p,
        lastDefined (compute_atr_sma (trueRangeVals df) p), p, "sma"⟩, ?_⟩
      simp only [compute_atr, if_neg hnot]
      rw [if_neg (by decide), if_pos (by decide),
        show pyLower "sma" = "sma" from by decide]
    · refine ⟨⟨(compute_atr_ema (trueRangeVals df) p).map some,
        lastDefined ((compute_atr_ema (trueRangeVals df) p).map some), p, "ema"⟩, ?_⟩
      simp only [compute_atr, if_neg hnot]
      rw [if_neg (by decide), if_neg (by decide), if_pos (by decide),
        show pyLower "ema" = "ema" from by decide]

/-- Witness for C7 at `period = 1`: one bar is insufficient, two bars with
method `wilder` succeed. -/
theorem compute_atr_insufficient_iff_witness :
    ([(⟨10, 8, 9⟩ : Bar)].length < 1 + 1 ∧
      compute_atr [⟨10, 8, 9⟩] 1 "wilder" = .error ATRError.insufficientData) ∧
    (1 + 1 ≤ ([(⟨10, 8, 9⟩ : Bar), ⟨11, 9, 10⟩]).length ∧
      ∃ r, compute_atr [(⟨10, 8, 9⟩ : Bar), ⟨11, 9, 10⟩] 1 "wilder" = .ok r) := by
  constructor
  · exact ⟨by norm_num,
      (compute_atr_insufficient_iff [⟨10, 8, 9⟩] 1 "wilder" (by norm_num)).1
        (by norm_num)⟩
  · exact ⟨by norm_num,
      (compute_atr_insufficient_iff [⟨10, 8, 9⟩, ⟨11, 9, 10⟩] 1 "wilder"
        (by norm_num)).2 (by norm_num) (Or.inl rfl)⟩

theorem neutralGuard_of_absent_or_low (c : AnalystConfig) (count : Option ℤ)
    (h : count = none ∨ ∃ n, count = some n ∧ n < c.min_analyst_count) :
    neutralGuard c count = true := by
  rcases h with h | ⟨n, hn, hlt⟩
  · subst h
    rfl
  · subst hn
    simp [neutralGuard, hlt]

/-- C4: whenever the configured multiplier range contains the neutral value 1
(as the defaults 0.8 and 1.2 do), `calculate_score` keeps the multiplier
within `[min_multiplier, max_multiplier]` for every input combination; with
every analyst field missing the composite is 50 and the multiplier exactly 1;
and with the analyst count absent or below `min_analyst_count` the result is
neutral: upside, sentiment and momentum sub-scores 50, coverage 0,
multiplier 1. -/
theorem calculate_score_spec (c : AnalystConfig) (tm up rm : Option ℚ)
    (count : Option ℤ) (u d : ℤ)
    (hmin : c.min_multiplier ≤ 1) (hmax : 1 ≤ c.max_multiplier) :
    (c.min_multiplier ≤ (calculate_score c tm up rm count u d).multiplier ∧
      (calculate_score c tm up rm count u d).multiplier ≤ c.max_multiplier) ∧
    ((tm = none ∧ up = none ∧ rm = none ∧ count = none ∧ u = 0 ∧ d = 0) →
      (calculate_score c tm up rm count u d).composite_score = 50 ∧
      (calculate_score c tm up rm count u d).multiplier = 1) ∧
    ((count = none ∨ ∃ n, count = some n ∧ n < c.min_analyst_count) →
      (calculate_score c tm up rm count u d).upside_score = 50 ∧
      (calculate_score c tm up rm count u d).sentiment_score = 50 ∧
      (calculate_score c tm up rm count u d).momentum_score = 50 ∧
      (calculate_score c tm up rm count u d).coverage_score = 0 ∧
      (calculate_score c tm up rm count u d).multiplier = 1) := by
  have hrange : c.min_multiplier ≤ c.max_multiplier := hmin.trans hmax
  refine ⟨?_, ?_, ?_⟩
  · by_cases h : neutralGuard c count = true
    · simp only [calculate_score, if_pos h]
      exact ⟨hmin, hmax⟩
    · simp only [calculate_score, if_neg h, score_to_multiplier]
      constructor
      · exact le_max_left _ _
      · exact max_le hrange (min_le_left _ _)
  · rintro ⟨-, -, -, hc, -, -⟩
    have h : neutralGuard c count = true :=
      neutralGuard_of_absent_or_low c count (Or.inl hc)
    simp [calculate_score, if_pos h]
  · intro h
    simp [calculate_score, if_pos (neutralGuard_of_absent_or_low c count h)]

/-- Witness for C4 at the default configuration
`(0.35, 0.30, 0.20, 0.15, 0.8, 1.2, 3)` with every analyst field missing. -/
theorem calculate_score_spec_witness :
    ((0.8 : ℚ) ≤ 1 ∧ (1 : ℚ) ≤ 1.2) ∧
    ((calculate_score ⟨0.35, 0.30, 0.20, 0.15, 0.8, 1.2, 3⟩
        none none none none 0 0).composite_score = 50 ∧
      (calculate_score ⟨0.35, 0.30, 0.20, 0.15, 0.8, 1.2, 3⟩
        none none none none 0 0).multiplier = 1) :=
  ⟨⟨by norm_num, by norm_num⟩,
    (calculate_score_spec ⟨0.35, 0.30, 0.20, 0.15, 0.8, 1.2, 3⟩
        none none none none 0 0 (by norm_num) (by norm_num)).2.1
      ⟨rfl, rfl, rfl, rfl, rfl, rfl⟩⟩

/-- C2: for a positive TTL, `set` then immediate `get` returns the value, and
a `get` more than `ttl` hours later misses and removes the backing entry. -/
theorem cache_roundtrip {α : Type} (s : CacheStore α) (k : String) (v : α)
    (ttl : ℤ) (now later : ℚ) (httl : 0 < ttl) :
    (cache_get (cache_set s k v ttl now) k now).1 = some v ∧
    (later - now > (ttl : ℚ) →
      (cache_get (cache_set s k v ttl now) k later).1 = none ∧
      (cache_get (cache_set s k v ttl now) k later).2 k = none) := by
  have hset : cache_set s k v ttl now k = some ⟨v, now, ttl, k⟩ := by
    simp [cache_set]
  constructor
  · have hfresh : (⟨v, now, ttl, k⟩ : CacheEntry α).is_expired now = false := by
      have : ¬ now > now + (ttl : ℚ) := by
        have : (0 : ℚ) < (ttl : ℚ) := by exact_mod_cast httl
        linarith
      simpa [CacheEntry.is_expired] using this
    simp [cache_get, hset, hfresh]
  · intro hlate
    have hexp : (⟨v, now, ttl, k⟩ : CacheEntry α).is_expired later = true := by
      have : later > now + (ttl : ℚ) := by linarith
      simpa [CacheEntry.is_expired] using this
    constructor
    · simp [cache_get, hset, hexp]
    · simp [cache_get, hset, hexp]

/-- Witness for C2 at `ttl = 1` hour, `set` at time 0, late `get` at time 2,
on the empty store. -/
theorem cache_roundtrip_witness :
    (0 : ℤ) < 1 ∧ ((2 : ℚ) - 0 > ((1 : ℤ) : ℚ)) ∧
    ((cache_get (cache_set (fun _ => (none : Option (CacheEntry ℕ)))
        "fundamentals:AAPL" 7 1 0) "fundamentals:AAPL" 0).1 = some 7 ∧
      (cache_get (cache_set (fun _ => (none : Option (CacheEntry ℕ)))
        "fundamentals:AAPL" 7 1 0) "fundamentals:AAPL" 2).1 = none) := by
  have h := cache_roundtrip (α := ℕ) (fun _ => none) "fundamentals:AAPL" 7 1 0 2
    (by norm_num)
  exact ⟨by norm_num, by norm_num, h.1, (h.2 (by norm_num)).1⟩

/-- `max(xs, key=f)` attains the maximal key and is the first element of the
list doing so. -/
theorem pyMaxBy_spec {β : Type} (f : β → ℚ) (x : β) (xs : List β) :
    (∀ y ∈ x :: xs, f y ≤ f (pyMaxBy f x xs)) ∧
    (x :: xs).find? (fun y => decide (f y = f (pyMaxBy f x xs))) =
      some (pyMaxBy f x xs) := by
  induction xs generalizing x with
  | nil =>
    refine ⟨?_, ?_⟩
    · intro y hy
      rcases List.mem_singleton.mp hy with rfl
      exact le_refl _
    · exact List.find?_cons_of_pos [] (by simp [pyMaxBy])
  | cons y ys ih =>
    have hstep : pyMaxBy f x (y :: ys) = pyMaxBy f (if f y > f x then y else x) ys := rfl
    by_cases h : f y > f x
    · obtain ⟨ihle, ihfind⟩ := ih y
      rw [hstep, if_pos h]
      have hxlt : f x < f (pyMaxBy f y ys) :=
        lt_of_lt_of_le h (ihle y (List.mem_cons_self y ys))
      refine ⟨?_, ?_⟩
      · intro z hz
        rcases List.mem_cons.mp hz with rfl | hz
        · exact hxlt.le
        · exact ihle z hz
      · rw [List.find?_cons_of_neg _ (by simp [hxlt.ne]), ihfind]
    · obtain ⟨ihle, ihfind⟩ := ih x
      rw [hstep, if_neg h]
      have hyx : f y ≤ f x := not_lt.mp h
      have hxle : f x ≤ f (pyMaxBy f x ys) := ihle x (List.mem_cons_self x ys)
      refine ⟨?_, ?_⟩
      · intro z hz
        rcases List.mem_cons.mp hz with rfl | hz
        · exact hxle
        · rcases List.mem_cons.mp hz with rfl | hz
          · exact hyx.trans hxle
          · exact ihle z (List.mem_cons_of_mem x hz)
      · by_cases hx : f x = f (pyMaxBy f x ys)
        · have hfx : (x :: ys).find? (fun z => decide (f z = f (pyMaxBy f x ys))) =
              some x := List.find?_cons_of_pos ys (by simp [hx])
          have hbx : pyMaxBy f x ys = x := by
            have := hfx.symm.trans ihfind
            exact (Option.some.injEq _ _).mp this.symm
          rw [List.find?_cons_of_pos _ (by simp [hx])]
          rw [hbx]
        · have hxlt : f x < f (pyMaxBy f x ys) := lt_of_le_of_ne hxle hx
          have hylt : f y < f (pyMaxBy f x ys) := lt_of_le_of_lt hyx hxlt
          rw [List.find?_cons_of_neg _ (by simp [hx]),
            List.find?_cons_of_neg _ (by simp [hylt.ne])]
          have := ihfind
          rw [List.find?_cons_of_neg _ (by simp [hx])] at this
          exact this

/-- `max` of the keys is the key of `max(..., key=f)`. -/
theorem pyMax_eq_pyMaxBy {β : Type} (f : β → ℚ) (x : β) (xs : List β) :
    pyMax (f x) (xs.map f) = f (pyMaxBy f x xs) := by
  induction xs generalizing x with
  | nil => rfl
  | cons y ys ih =>
    show pyMax (if f y > f x then f y else f x) (ys.map f) =
      f (pyMaxBy f (if f y > f x then y else x) ys)
    rw [← apply_ite f]
    exact ih (if f y > f x then y else x)

/-- After rewriting the first slot whose score attains `ms`, looking its key
up in the rebuilt score map returns the new object's score (keys distinct). -/
theorem setFirstBy_lookup (c : ScreenerResult) (ms : ℚ)
    (l : List (String × ScreenerResult)) (hnd : (l.map Prod.fst).Nodup)
    (selName : String) (selVal : ScreenerResult)
    (hfind : l.find? (fun pr => decide (pr.2.score = ms)) = some (selName, selVal)) :
    ((setFirstBy (fun pr => decide (pr.2.score = ms))
        (fun pr => (pr.1, c)) l).map (fun pr => (pr.1, pr.2.score))).lookup selName =
      some c.score := by
  induction l with
  | nil => simp at hfind
  | cons kv tl ih =>
    by_cases hq : kv.2.score = ms
    · rw [List.find?_cons_of_pos tl (by simp [hq])] at hfind
      have hkey : kv.1 = selName := by
        have := (Option.some.injEq _ _).mp hfind
        exact congrArg Prod.fst this
      show ((if (decide (kv.2.score = ms)) = true then (kv.1, c) :: tl
          else kv :: setFirstBy _ _ tl).map (fun pr => (pr.1, pr.2.score))).lookup
          selName = some c.score
      rw [if_pos (by simp [hq])]
      simp [List.lookup, hkey]
    · rw [List.find?_cons_of_neg tl (by simp [hq])] at hfind
      have hmem : (selName, selVal) ∈ tl := List.mem_of_find?_eq_some hfind
      have hne : selName ≠ kv.1 := by
        intro heq
        have : selName ∈ tl.map Prod.fst :=
          List.mem_map.mpr ⟨(selName, selVal), hmem, rfl⟩
        rw [heq] at this
        exact (List.nodup_cons.mp (by simpa using hnd)).1 this
      have htl : (tl.map Prod.fst).Nodup := (List.nodup_cons.mp (by simpa using hnd)).2
      show ((if (decide (kv.2.score = ms)) = true then (kv.1, c) :: tl
          else kv :: setFirstBy _ _ tl).map (fun pr => (pr.1, pr.2.score))).lookup
          selName = some c.score
      rw [if_neg (by simp [hq])]
      have hb : (selName == kv.1) = false := beq_false_of_ne hne
      simp only [List.map_cons, List.lookup, hb]
      exact ih htl hfind

theorem applyMult_none (r : ScreenerResult) : applyMult none r = r := rfl

theorem combineStep_union_eq (mode : String) (hm : ¬ mode = "intersection")
    (n0 : String) (v0 : ScreenerResult) (rest : List (String × ScreenerResult))
    (mult : Option ℚ) :
    combineStep mode ((n0, v0) :: rest) mult =
      some (applyMult mult
          ⟨(pyMaxBy (fun r => r.score) v0 (rest.map Prod.snd)).ticker,
            pyMax v0.score ((rest.map Prod.snd).map (fun r => r.score)),
            (v0 :: rest.map Prod.snd).any (fun r => r.passed),
            (pyMaxBy (fun r => r.score) v0 (rest.map Prod.snd)).passed_criteria,
            (pyMaxBy (fun r => r.score) v0 (rest.map Prod.snd)).failed_criteria,
            (pyMaxBy (fun r => r.score) v0 (rest.map Prod.snd)).notes⟩,
        (setFirstBy
            (fun pr => decide (pr.2.score =
              pyMax v0.score ((rest.map Prod.snd).map (fun r => r.score))))
            (fun pr => (pr.1, applyMult mult
              ⟨(pyMaxBy (fun r => r.score) v0 (rest.map Prod.snd)).ticker,
                pyMax v0.score ((rest.map Prod.snd).map (fun r => r.score)),
                (v0 :: rest.map Prod.snd).any (fun r => r.passed),
                (pyMaxBy (fun r => r.score) v0 (rest.map Prod.snd)).passed_criteria,
                (pyMaxBy (fun r => r.score) v0 (rest.map Prod.snd)).failed_criteria,
                (pyMaxBy (fun r => r.score) v0 (rest.map Prod.snd)).notes⟩))
            ((n0, v0) :: rest)).map (fun pr => (pr.1, pr.2.score))) := by
  simp only [combineStep]
  rw [if_neg hm]

theorem combineStep_inter_eq (n0 : String) (v0 : ScreenerResult)
    (rest : List (String × ScreenerResult)) (mult : Option ℚ) :
    combineStep "intersection" ((n0, v0) :: rest) mult =
      some (applyMult mult
          ⟨v0.ticker,
            ((v0 :: rest.map Prod.snd).map (fun r => r.score)).sum /
              ((v0 :: rest.map Prod.snd).length : ℚ),
            (v0 :: rest.map Prod.snd).all (fun r => r.passed),
            v0.passed_criteria, v0.failed_criteria, v0.notes⟩,
        ((n0, applyMult mult
            ⟨v0.ticker,
              ((v0 :: rest.map Prod.snd).map (fun r => r.score)).sum /
                ((v0 :: rest.map Prod.snd).length : ℚ),
              (v0 :: rest.map Prod.snd).all (fun r => r.passed),
              v0.passed_criteria, v0.failed_criteria, v0.notes⟩) :: rest).map
          (fun pr => (pr.1, pr.2.score))) := by
  simp only [combineStep]
  rw [if_pos trivial]

/-- C1: on a nonempty strategy dict, union mode passes iff some strategy
passed, scores the maximum of the per-strategy scores, and represents the
verdict of the first strategy attaining that maximum; intersection mode
passes iff all passed and scores the arithmetic mean, on the first
strategy's verdict as template.  On two verdicts with scores 60 (fail) and
80 (pass), union gives 80/pass and intersection 70/fail. -/
theorem run_screen_combine_spec (n0 : String) (v0 : ScreenerResult)
    (rest : List (String × ScreenerResult)) :
    (∃ c scores, combineStep "union" ((n0, v0) :: rest) none = some (c, scores) ∧
      (c.passed = true ↔ ∃ y ∈ v0 :: rest.map Prod.snd, y.passed = true) ∧
      (∀ y ∈ v0 :: rest.map Prod.snd, y.score ≤ c.score) ∧
      (∃ y ∈ v0 :: rest.map Prod.snd, y.score = c.score) ∧
      (∃ t, (v0 :: rest.map Prod.snd).find? (fun y => decide (y.score = c.score)) =
          some t ∧
        c = ⟨t.ticker, c.score, c.passed, t.passed_criteria, t.failed_criteria,
          t.notes⟩)) ∧
    (∃ c scores, combineStep "intersection" ((n0, v0) :: rest) none =
        some (c, scores) ∧
      (c.passed = true ↔ ∀ y ∈ v0 :: rest.map Prod.snd, y.passed = true) ∧
      c.score = ((v0 :: rest.map Prod.snd).map (fun r => r.score)).sum /
        ((v0 :: rest.map Prod.snd).length : ℚ) ∧
      c = ⟨v0.ticker, c.score, c.passed, v0.passed_criteria, v0.failed_criteria,
        v0.notes⟩) ∧
    ((combineStep "union" [("a", ⟨"T", 60, false, [], [], ""⟩),
        ("b", ⟨"T", 80, true, [], [], ""⟩)] none).map
      (fun p => (p.1.score, p.1.passed)) = some (80, true)) ∧
    ((combineStep "intersection" [("a", ⟨"T", 60, false, [], [], ""⟩),
        ("b", ⟨"T", 80, true, [], [], ""⟩)] none).map
      (fun p => (p.1.score, p.1.passed)) = some (70, false)) := by
  refine ⟨?_, ?_, ?_, ?_⟩
  · rw [combineStep_union_eq "union" (by decide) n0 v0 rest none]
    set vs := rest.map Prod.snd with hvs
    set sel := pyMaxBy (fun r => r.score) v0 vs with hsel
    have hms : pyMax v0.score (vs.map (fun r => r.score)) = sel.score :=
      pyMax_eq_pyMaxBy (fun r => r.score) v0 vs
    obtain ⟨hle, hfind⟩ := pyMaxBy_spec (fun r => r.score) v0 vs
    refine ⟨_, _, rfl, ?_, ?_, ?_, ?_⟩
    · simp [applyMult_none, List.any_eq_true]
    · intro y hy
      show y.score ≤ pyMax v0.score (vs.map (fun r => r.score))
      rw [hms]
      exact hle y hy
    · refine ⟨sel, List.mem_of_find?_eq_some hfind, ?_⟩
      show sel.score = pyMax v0.score (vs.map (fun r => r.score))
      rw [hms]
    · refine ⟨sel, ?_, rfl⟩
      show (v0 :: vs).find? (fun y => decide (y.score =
        pyMax v0.score (vs.map (fun r => r.score)))) = some sel
      rw [hms]
      exact hfind
  · rw [combineStep_inter_eq n0 v0 rest none]
    refine ⟨_, _, rfl, ?_, rfl, rfl⟩
    simp [applyMult_none, List.all_eq_true]
  · rw [combineStep_union_eq "union" (by decide) "a" ⟨"T", 60, false, [], [], ""⟩
      [("b", ⟨"T", 80, true, [], [], ""⟩)] none]
    norm_num [applyMult, pyMax, pyMaxBy]
  · rw [combineStep_inter_eq "a" ⟨"T", 60, false, [], [], ""⟩
      [("b", ⟨"T", 80, true, [], [], ""⟩)] none]
    norm_num [applyMult]

/-- C9: the combine step mutates the selected shared `ScreenerResult` in
place and rebuilds `screener_scores` from the dict afterwards, so with
analyst scoring enabled (multiplier `m`) the score recorded for the selected
strategy — the first max-scoring strategy in union mode, the first strategy
in intersection mode — is the final multiplier-adjusted combined score, not
that strategy's own verdict score. -/
theorem run_screen_scores_alias (mode : String) (n0 : String)
    (v0 : ScreenerResult) (rest : List (String × ScreenerResult)) (m : ℚ)
    (hnd : (((n0, v0) :: rest).map Prod.fst).Nodup) :
    (mode = "intersection" →
      ∃ c scores, combineStep mode ((n0, v0) :: rest) (some m) = some (c, scores) ∧
        scores.lookup n0 = some c.score ∧
        c.score = (((v0 :: rest.map Prod.snd).map (fun r => r.score)).sum /
          ((v0 :: rest.map Prod.snd).length : ℚ)) * m) ∧
    (mode ≠ "intersection" →
      ∃ c scores selName selVal,
        combineStep mode ((n0, v0) :: rest) (some m) = some (c, scores) ∧
        ((n0, v0) :: rest).find? (fun pr => decide (pr.2.score =
          pyMax v0.score ((rest.map Prod.snd).map (fun r => r.score)))) =
          some (selName, selVal) ∧
        scores.lookup selName = some c.score ∧
        c.score = pyMax v0.score ((rest.map Prod.snd).map (fun r => r.score)) * m) := by
  constructor
  · rintro rfl
    rw [combineStep_inter_eq n0 v0 rest (some m)]
    refine ⟨_, _, rfl, ?_, rfl⟩
    simp [List.lookup, applyMult]
  · intro hm
    rw [combineStep_union_eq mode hm n0 v0 rest (some m)]
    set vs := rest.map Prod.snd with hvs
    set sel := pyMaxBy (fun r => r.score) v0 vs with hsel
    have hms : pyMax v0.score (vs.map (fun r => r.score)) = sel.score :=
      pyMax_eq_pyMaxBy (fun r => r.score) v0 vs
    obtain ⟨-, hfind⟩ := pyMaxBy_spec (fun r => r.score) v0 vs
    -- transport the find? over the snd projection to the pair list
    have hfind2 : (((n0, v0) :: rest).map Prod.snd).find?
        (fun y => decide (y.score = sel.score)) = some sel := hfind
    rw [List.find?_map] at hfind2
    obtain ⟨pr, hpr, hprs⟩ := Option.map_eq_some'.mp hfind2
    have hprfind : ((n0, v0) :: rest).find? (fun pr => decide (pr.2.score =
        pyMax v0.score (vs.map (fun r => r.score)))) = some pr := by
      rw [hms]
      exact hpr
    refine ⟨_, _, pr.1, pr.2, rfl, ?_, ?_, rfl⟩
    · simpa using hprfind
    · have hlook := setFirstBy_lookup
        (applyMult (some m)
          ⟨sel.ticker, pyMax v0.score (vs.map (fun r => r.score)),
            (v0 :: vs).any (fun r => r.passed),
            sel.passed_criteria, sel.failed_criteria, sel.notes⟩)
        (pyMax v0.score (vs.map (fun r => r.score)))
        ((n0, v0) :: rest) hnd pr.1 pr.2 (by simpa using hprfind)
      simpa using hlook

/-- Witness for C9 in union mode on strategies `a` (score 60, fail) and `b`
(score 80, pass) with multiplier 2: the theorem applies, with the scores
entry for the selected strategy equal to the final adjusted score. -/
theorem run_screen_scores_alias_witness :
    ((([("a", (⟨"T", 60, false, [], [], ""⟩ : ScreenerResult)),
        ("b", (⟨"T", 80, true, [], [], ""⟩ : ScreenerResult))]).map Prod.fst).Nodup) ∧
    (∃ c scores selName selVal,
      combineStep "union" [("a", (⟨"T", 60, false, [], [], ""⟩ : ScreenerResult)),
        ("b", (⟨"T", 80, true, [], [], ""⟩ : ScreenerResult))] (some 2) =
        some (c, scores) ∧
      ([("a", (⟨"T", 60, false, [], [], ""⟩ : ScreenerResult)),
        ("b", (⟨"T", 80, true, [], [], ""⟩ : ScreenerResult))]).find?
        (fun pr => decide (pr.2.score = pyMax (60 : ℚ)
          (([("b", (⟨"T", 80, true, [], [], ""⟩ : ScreenerResult))].map
            Prod.snd).map (fun r => r.score)))) = some (selName, selVal) ∧
      scores.lookup selName = some c.score ∧
      c.score = pyMax (60 : ℚ)
        (([("b", (⟨"T", 80, true, [], [], ""⟩ : ScreenerResult))].map
          Prod.snd).map (fun r => r.score)) * 2) :=
  ⟨by decide,
    (run_screen_scores_alias "union" "a" ⟨"T", 60, false, [], [], ""⟩
      [("b", ⟨"T", 80, true, [], [], ""⟩)] 2 (by decide)).2 (by decide)⟩

end StockWave
